import Mathlib

/-!
Shallow embedding of the product-recommender pipeline
(`recommendation_engine.py`, `database.py`, `ai_service.py`, `models.py`).

Strings are Lean `String`s; Python string operations (`lower`, `in`,
`split`, the capacity regex) are modelled by executable functions below.
A product's `specs` dict is held as its `json.dumps` serialization, since
the pipeline only ever inspects that serialized text.
-/

namespace Recommender

/-- Python `str.lower()` (ASCII range, as in the catalog data). -/
def pyLower (s : String) : String := String.mk (s.toList.map Char.toLower)

/-- Boolean substring test on character lists: `needle` occurs inside `hay`. -/
def substrB (needle : List Char) : List Char → Bool
  | [] => needle.isEmpty
  | c :: rest => needle.isPrefixOf (c :: rest) || substrB needle rest

/-- Python `needle in hay` on strings (substring containment). -/
def pyIn (needle hay : String) : Bool := substrB needle.toList hay.toList

/-- Python whitespace class for `str.split()` and the regex class backslash-s. -/
def pyIsSpace (c : Char) : Bool :=
  c = ' ' || c = '\t' || c = '\n' || c = '\r' || c = '\x0b' || c = '\x0c'

/-- Helper for `pySplit`: accumulates the current word reversed. -/
def pySplitAux : List Char → List Char → List (List Char)
  | [], acc => if acc.isEmpty then [] else [acc.reverse]
  | c :: rest, acc =>
    if pyIsSpace c then
      if acc.isEmpty then pySplitAux rest []
      else acc.reverse :: pySplitAux rest []
    else pySplitAux rest (c :: acc)

/-- Python `str.split()` with no separator: splits on whitespace runs,
producing no empty tokens. -/
def pySplit (s : String) : List String := (pySplitAux s.toList []).map String.mk

/-- Python truthiness of an optional string: `None` and `""` are falsy. -/
def truthyStr : Option String → Option String
  | some s => if s.isEmpty then none else some s
  | none => none

/-- Python truthiness of an optional int: `None` and `0` are falsy. -/
def truthyInt : Option Int → Option Int
  | some n => if n = 0 then none else some n
  | none => none

/-- The fixed category enumeration of `models.ProductCategory`. -/
inductive ProductCategory where
  | tv | refrigerator | washing_machine | dryer
  | ac | soundbar | projector | dishwasher
deriving DecidableEq

/-- The `.value` string of each `ProductCategory` member. -/
def categoryValue : ProductCategory → String
  | .tv => "tv"
  | .refrigerator => "refrigerator"
  | .washing_machine => "washing_machine"
  | .dryer => "dryer"
  | .ac => "ac"
  | .soundbar => "soundbar"
  | .projector => "projector"
  | .dishwasher => "dishwasher"

/-- Python `ProductCategory(s)`: returns the member whose value is `s`,
`none` models the `ValueError` raised on an unrecognized value. -/
def categoryOfString (s : String) : Option ProductCategory :=
  if s = "tv" then some .tv
  else if s = "refrigerator" then some .refrigerator
  else if s = "washing_machine" then some .washing_machine
  else if s = "dryer" then some .dryer
  else if s = "ac" then some .ac
  else if s = "soundbar" then some .soundbar
  else if s = "projector" then some .projector
  else if s = "dishwasher" then some .dishwasher
  else none

/-- The `models.Product` record; `specs` holds the `json.dumps` serialization
of the specs dict (the only view the scored pipeline uses). -/
structure Product where
  id : String
  name : String
  category : ProductCategory
  brand : String
  specs : String
  features : List String
  url : Option String
  sizes : List String
deriving DecidableEq

/-- The `models.ParsedQuery` structured intent. -/
structure ParsedQuery where
  category : Option String
  use_case : Option String
  room_size : Option String
  family_size : Option Int
  capacity : Option String
  size_preference : Option String
  must_have_features : List String
  keywords : List String
deriving DecidableEq

/-- Python `ParsedQuery()`: the all-absent intent. -/
def emptyIntent : ParsedQuery := ⟨none, none, none, none, none, none, [], []⟩

/-- The text `" ".join(product.features).lower()` used by the scorer. -/
def featuresText (p : Product) : String := pyLower (String.intercalate " " p.features)

/-- The text `json.dumps(product.specs).lower()` used by the scorer. -/
def specsText (p : Product) : String := pyLower p.specs

/-- Value of an ASCII digit run, as Python `int()` of the matched group. -/
def digitsToNat (ds : List Char) : Nat :=
  ds.foldl (fun a c => a * 10 + (c.toNat - 48)) 0

/-- Tries to match the regex pattern digits, optional whitespace, a unit
marker (case-insensitive) at the head of `s`; returns the numeric group. -/
def matchCapAt (unit : List Char) (s : List Char) : Option Nat :=
  let ds := s.takeWhile Char.isDigit
  if ds.isEmpty then none
  else
    let rest := (s.dropWhile Char.isDigit).dropWhile pyIsSpace
    if (unit.map Char.toLower).isPrefixOf (rest.map Char.toLower) then
      some (digitsToNat ds)
    else none

/-- Leftmost-match scan for `matchCapAt` over all suffixes. -/
def reSearchCapacity (unit : List Char) : List Char → Option Nat
  | [] => none
  | c :: rest =>
    match matchCapAt unit (c :: rest) with
    | some n => some n
    | none => reSearchCapacity unit rest

/-- Python `re.search(r'(\d+)\s*UNIT', name, re.IGNORECASE)` followed by
`int(match.group(1))`, for unit markers `"L"` and `"kg"`. -/
def parseCapacity (unit : String) (name : String) : Option Nat :=
  reSearchCapacity unit.toList name.toList

/-- Category-match bonus of `_score_products` (lines 96-102): +15 when the
intent names a recognized category equal to the product's category. -/
def categoryBonus (parsed : ParsedQuery) (product : Product) : Nat :=
  match truthyStr parsed.category with
  | none => 0
  | some c =>
    match categoryOfString (pyLower c) with
    | none => 0
    | some cat => if product.category = cat then 15 else 0

/-- Keyword-in-name loop of `_score_products` (lines 104-108). -/
def keywordNameBonus (keywords : List String) (product : Product) : Nat :=
  keywords.foldl
    (fun acc k => if pyIn (pyLower k) (pyLower product.name) then acc + 10 else acc) 0

/-- Keyword-in-features-or-specs loop of `_score_products` (lines 114-116). -/
def keywordFeatureBonus (keywords : List String) (product : Product) : Nat :=
  keywords.foldl
    (fun acc k =>
      if pyIn (pyLower k) (featuresText product) || pyIn (pyLower k) (specsText product)
      then acc + 5 else acc) 0

/-- Query-term loop of `_score_products` (lines 118-125): +3 / +2 per token
of the lowercased raw query longer than 3 characters. -/
def queryTermBonus (query : String) (product : Product) : Nat :=
  (pySplit (pyLower query)).foldl
    (fun acc term =>
      if term.length > 3 then
        let acc1 := if pyIn term (pyLower product.name) then acc + 3 else acc
        if pyIn term (featuresText product) || pyIn term (specsText product)
        then acc1 + 2 else acc1
      else acc) 0

/-- Size-preference bonus of `_score_products` (lines 127-134). -/
def sizePrefBonus (parsed : ParsedQuery) (product : Product) : Nat :=
  match truthyStr parsed.size_preference with
  | none => 0
  | some sp =>
    let spl := pyLower sp
    (if product.sizes.any (fun s => pyIn spl (pyLower s)) then 15 else 0)
      + (if pyIn spl (specsText product) then 10 else 0)

/-- Capacity bonus of `_score_products` (lines 136-140). -/
def capacityBonus (parsed : ParsedQuery) (product : Product) : Nat :=
  match truthyStr parsed.capacity with
  | none => 0
  | some c =>
    let cl := pyLower c
    if pyIn cl (pyLower product.name) || pyIn cl (specsText product) then 15 else 0

/-- The `_use_case_score` method (lines 149-245), translated branch by branch. -/
def useCaseScore (product : Product) (parsed : ParsedQuery) : Nat :=
  let use_case := pyLower ((truthyStr parsed.use_case).getD "")
  let ft := featuresText product
  let st := specsText product
  match product.category with
  | .tv =>
    (if pyIn "gaming" use_case || pyIn "game" use_case then
        (if pyIn "120hz" st || pyIn "144hz" st || pyIn "165hz" st then 15 else 0)
        + (if pyIn "game mode" ft || pyIn "game bar" ft then 10 else 0)
        + (if pyIn "vrr" st || pyIn "allm" st then 5 else 0)
      else 0)
    + (if pyIn "movie" use_case || pyIn "cinema" use_case then
        (if pyIn "dolby vision" st || pyIn "dolby atmos" ft then 15 else 0)
        + (if pyIn "hdr" st then 10 else 0)
        + (if pyIn "oled" st || pyIn "miniled" st || pyIn "mini-led" st then 10 else 0)
      else 0)
    + (if pyIn "sport" use_case then
        (if pyIn "sports mode" ft || pyIn "ai sports" ft then 15 else 0)
        + (if pyIn "memc" st || pyIn "motion" ft then 10 else 0)
      else 0)
  | .refrigerator =>
    match truthyInt parsed.family_size with
    | none => 0
    | some fs =>
      match parseCapacity "L" product.name with
      | none => 0
      | some cap =>
        let ideal := fs * 100
        if Int.natAbs ((cap : Int) - ideal) < 100 then 15
        else if Int.natAbs ((cap : Int) - ideal) < 200 then 10
        else 0
  | .washing_machine =>
    (match truthyInt parsed.family_size with
      | none => 0
      | some fs =>
        match parseCapacity "kg" product.name with
        | none => 0
        | some cap =>
          let ideal := fs * 2
          if Int.natAbs ((cap : Int) - ideal) ≤ 2 then 15
          else if Int.natAbs ((cap : Int) - ideal) ≤ 4 then 10
          else 0)
    + (if pyIn "smart" use_case || pyIn "connected" use_case then
        (if pyIn "connect" ft || pyIn "app" ft then 10 else 0)
      else 0)
  | .ac =>
    let room_size := pyLower ((truthyStr parsed.room_size).getD "")
    (if pyIn "large" room_size || pyIn "living" room_size then
        (if pyIn "2 ton" st || pyIn "24000" st then 15 else 0)
      else if pyIn "small" room_size || pyIn "bedroom" room_size then
        (if pyIn "1 ton" st || pyIn "1.5 ton" st then 15 else 0)
      else 0)
    + (if pyIn "inverter" ft || pyIn "inverter" st then 5 else 0)
  | .soundbar =>
    (if pyIn "movie" use_case || pyIn "cinema" use_case then
        (if pyIn "dolby atmos" ft || pyIn "atmos" st then 15 else 0)
      else 0)
    + (if pyIn "bass" use_case || pyIn "music" use_case then
        (if pyIn "subwoofer" (pyLower product.name) || pyIn "subwoofer" st then 10 else 0)
      else 0)
  | .projector =>
    if pyIn "cinema" use_case || pyIn "movie" use_case then
      (if pyIn "laser" (pyLower product.name) || pyIn "4k" st then 15 else 0)
      + (if pyIn "dolby" st then 10 else 0)
    else 0
  | .dryer => 0
  | .dishwasher => 0

/-- The per-product body of `_score_products` (lines 92-145): base 50, the
accumulated bonuses in source order, then `min(score, 100)`. -/
def scoreProduct (product : Product) (parsed : ParsedQuery) (query : String) : Nat :=
  let keywords := parsed.keywords ++ parsed.must_have_features
  min (50 + categoryBonus parsed product + keywordNameBonus keywords product
      + keywordFeatureBonus keywords product + queryTermBonus query product
      + sizePrefBonus parsed product + capacityBonus parsed product
      + useCaseScore product parsed) 100

/-- `_score_products` over a product list: each entry pairs the product with
its score (the Python dict with keys product and score). -/
def scoreProducts (products : List Product) (parsed : ParsedQuery) (query : String) :
    List (Product × Nat) :=
  products.map (fun p => (p, scoreProduct p parsed query))

/-- One insertion step of a stable descending sort: the inserted element
goes before the first element whose score is not greater, so an element
inserted from the left keeps its place ahead of equal scores. -/
def insertDesc (a : Product × Nat) : List (Product × Nat) → List (Product × Nat)
  | [] => [a]
  | b :: bs => if a.2 < b.2 then b :: insertDesc a bs else a :: b :: bs

/-- Model of Python `list.sort(key=lambda x: x["score"], reverse=True)`:
CPython's sort is stable, so this is a stable descending sort by score. -/
def sortDesc : List (Product × Nat) → List (Product × Nat)
  | [] => []
  | a :: as => insertDesc a (sortDesc as)

/-- Sorted in descending score order. -/
def SortedDesc (l : List (Product × Nat)) : Prop :=
  List.Pairwise (fun x y => y.2 ≤ x.2) l

/-- The engine's `_filter_products` (lines 71-83): filter by the intent's
category when it is truthy and recognized, otherwise pass all through. -/
def engineFilter (products : List Product) (parsed : ParsedQuery) : List Product :=
  match truthyStr parsed.category with
  | none => products
  | some c =>
    match categoryOfString (pyLower c) with
    | none => products
    | some cat => products.filter (fun p => p.category = cat)

/-- The store's `filter_products` (database lines 171-190): category filter
as above, then brand filter when the brand list is truthy. -/
def filter_products (products : List Product) (category : Option String)
    (brands : Option (List String)) : List Product :=
  let results :=
    match truthyStr category with
    | none => products
    | some c =>
      match categoryOfString (pyLower c) with
      | none => products
      | some cat => products.filter (fun p => p.category = cat)
  match brands with
  | none => results
  | some bl =>
    if bl.isEmpty then results
    else
      let brands_lower := bl.map pyLower
      results.filter (fun p => brands_lower.contains (pyLower p.brand))

/-- The store's `search_products` (database lines 208-231): a product is kept
once if the lowercased query occurs in its name, serialized specs, or joined
features (the `continue` statements prevent duplicates). -/
def searchProducts (products : List Product) (query : String) : List Product :=
  let ql := pyLower query
  products.filter
    (fun p => pyIn ql (pyLower p.name) || pyIn ql (specsText p) || pyIn ql (featuresText p))

/-- The store's `get_product_by_id` (database lines 160-165). -/
def getProductById (products : List Product) (pid : String) : Option Product :=
  products.find? (fun p => p.id = pid)

/-- Values appearing in the candidate dicts handed to the explanation
service: strings, lists of strings, or Python `None`. -/
inductive PyVal where
  | str (s : String)
  | strList (l : List String)
  | vnone
deriving DecidableEq

/-- A Python dict modelled as an association list. -/
abbrev PyDict := List (String × PyVal)

/-- Python exceptions surfaced by the embedding: `d[k]` with `k` absent. -/
inductive PyErr where
  | keyError (k : String)
deriving DecidableEq

/-- Python `d[k]`: the value when present, `KeyError` otherwise. -/
def dictGet (d : PyDict) (k : String) : Except PyErr PyVal :=
  match List.lookup k d with
  | some v => Except.ok v
  | none => Except.error (PyErr.keyError k)

/-- Python `str()` of a candidate-dict value, as used in f-strings. -/
def pyStr : PyVal → String
  | .str s => s
  | .strList _ => "[...]"
  | .vnone => "None"

/-- The reduced candidate representation built in `get_recommendations`
(engine lines 36-47): exactly the keys id, name, category, specs, features,
sizes, url. -/
def projectProduct (p : Product) : PyDict :=
  [("id", .str p.id), ("name", .str p.name),
   ("category", .str (categoryValue p.category)),
   ("specs", .str p.specs), ("features", .strList p.features),
   ("sizes", .strList p.sizes),
   ("url", match p.url with | some u => .str u | none => .vnone)]

/-- One entry of the explanation result: product_id, score, reasoning. -/
structure RecEntry where
  product_id : String
  score : Nat
  reasoning : String
deriving DecidableEq

/-- The dict returned by `generate_recommendations`: a message and a list of
recommendation entries (score/message defaults already resolved). -/
structure AiResult where
  message : String
  recommendations : List RecEntry
deriving DecidableEq

/-- Outcome of the external reasoning round trip inside the try block of
`generate_recommendations`: a successfully parsed JSON result, a
`json.JSONDecodeError`, or any other exception (network failure etc.). -/
inductive ExtOutcome where
  | success (r : AiResult)
  | malformedJson
  | failure
deriving DecidableEq

/-- The list comprehension building fallback entries: evaluates per-candidate
dict accesses in order and propagates the first exception. -/
def buildEntries (f : PyDict → Except PyErr RecEntry) :
    List PyDict → Except PyErr (List RecEntry)
  | [] => Except.ok []
  | d :: ds =>
    match f d with
    | Except.error e => Except.error e
    | Except.ok r =>
      match buildEntries f ds with
      | Except.error e => Except.error e
      | Except.ok rs => Except.ok (r :: rs)

/-- One fallback entry of the `except json.JSONDecodeError` handler
(ai_service lines 102-115): accesses `p["id"]` and `p["name"]`. -/
def fallbackEntryA (p : PyDict) : Except PyErr RecEntry := do
  let pid ← dictGet p "id"
  let nm ← dictGet p "name"
  pure ⟨pyStr pid, 70, pyStr nm ++ " - a solid choice in this category."⟩

/-- One fallback entry of the `except Exception` handler (ai_service lines
116-128): the dict literal evaluates `p["id"]`, then the f-string evaluates
`p["name"]`, `p["brand"]`, `p["price"]` in order. -/
def fallbackEntryB (p : PyDict) : Except PyErr RecEntry := do
  let pid ← dictGet p "id"
  let nm ← dictGet p "name"
  let br ← dictGet p "brand"
  let pr ← dictGet p "price"
  pure ⟨pyStr pid, 70, pyStr nm ++ " by " ++ pyStr br ++ " at ₹" ++ pyStr pr⟩

/-- The fixed no-matches message of `generate_recommendations` (line 68). -/
def noMatchesMessage : String :=
  "I couldn\x27t find any products matching your requirements. Could you try adjusting your budget or requirements?"

/-- `AIService.generate_recommendations` (ai_service lines 59-128), with the
external round trip abstracted as an `ExtOutcome`. The empty-candidate check
precedes the try block, so no external call is modelled in that case. -/
def generateRecommendations (ext : ExtOutcome) (filtered_products : List PyDict) :
    Except PyErr AiResult :=
  if filtered_products.isEmpty then
    Except.ok ⟨noMatchesMessage, []⟩
  else
    match ext with
    | .success r => Except.ok r
    | .malformedJson => do
      let recs ← buildEntries fallbackEntryA (filtered_products.take 5)
      pure ⟨"Here are some products that match your requirements:", recs⟩
    | .failure => do
      let recs ← buildEntries fallbackEntryB (filtered_products.take 5)
      pure ⟨"Here are some products that might interest you:", recs⟩

/-- A final recommendation (`models.ProductRecommendation`). -/
structure ProductRecommendation where
  product : Product
  score : Nat
  reasoning : String
deriving DecidableEq

/-- The final response (`models.RecommendationResponse`). -/
structure RecommendationResponse where
  query : String
  parsed_query : ParsedQuery
  recommendations : List ProductRecommendation
  message : String
deriving DecidableEq

/-- `RecommendationEngine.get_recommendations` (engine lines 20-69), with the
intent-parsing call abstracted as its resulting `ParsedQuery` (the parser
never fails outward) and the explanation round trip as an `ExtOutcome`:
filter, score, stable-sort descending, project the top 10, explain, resolve
at most 3 entries by id (silently dropping unresolved ids), assemble. -/
def getRecommendations (db : List Product) (parsed_query : ParsedQuery)
    (ext : ExtOutcome) (query : String) : Except PyErr RecommendationResponse := do
  let filtered_products := engineFilter db parsed_query
  let scored_products := sortDesc (scoreProducts filtered_products parsed_query query)
  let products_for_ai := (scored_products.take 10).map (fun x => projectProduct x.1)
  let ai_result ← generateRecommendations ext products_for_ai
  let recommendations := (ai_result.recommendations.take 3).filterMap
    (fun r => (getProductById db r.product_id).map
      (fun product => ProductRecommendation.mk product r.score r.reasoning))
  pure ⟨query, parsed_query, recommendations, ai_result.message⟩

/-- Spec 4.3 rule 3, in the claim wording: +10 per entry of the concatenation
of keywords and must_have_features occurring case-insensitively in the name. -/
def specKeywordNameBonus (keywords : List String) (p : Product) : Nat :=
  10 * keywords.countP (fun k => pyIn (pyLower k) (pyLower p.name))

/-- Spec 4.3 rule 4: +5 per such entry occurring in the features text or
the serialized specs text. -/
def specKeywordFeatureBonus (keywords : List String) (p : Product) : Nat :=
  5 * keywords.countP
      (fun k => pyIn (pyLower k) (featuresText p) || pyIn (pyLower k) (specsText p))

/-- Spec 4.3 rule 5: per whitespace-delimited raw-query token longer than 3
characters, +3 if found in the name and +2 if found in features or specs. -/
def specQueryTokenBonus (query : String) (p : Product) : Nat :=
  ((pySplit (pyLower query)).map (fun t =>
    if t.length > 3 then
      (if pyIn t (pyLower p.name) then 3 else 0)
        + (if pyIn t (featuresText p) || pyIn t (specsText p) then 2 else 0)
    else 0)).sum

/-- The score formula as the spec states it: min(100, 50 + the sum of the
additive bonuses of spec section 4.3). -/
def specScore (p : Product) (intent : ParsedQuery) (query : String) : Nat :=
  min 100 (50 + categoryBonus intent p
    + specKeywordNameBonus (intent.keywords ++ intent.must_have_features) p
    + specKeywordFeatureBonus (intent.keywords ++ intent.must_have_features) p
    + specQueryTokenBonus query p
    + sizePrefBonus intent p + capacityBonus intent p + useCaseScore p intent)

/-- The one use-case bonus with no intent trigger (engine lines 222-224):
+5 for an AC product with "inverter" in its features or specs text. -/
def acInverterBonus (p : Product) : Nat :=
  if p.category = ProductCategory.ac then
    (if pyIn "inverter" (featuresText p) || pyIn "inverter" (specsText p) then 5 else 0)
  else 0

theorem foldl_add_if {α : Type} (c : α → Bool) (k : Nat) (l : List α) :
    ∀ a : Nat, l.foldl (fun acc x => if c x then acc + k else acc) a
      = a + k * l.countP c := by
  induction l with
  | nil => intro a; simp
  | cons x xs ih =>
    intro a
    simp only [List.foldl_cons, List.countP_cons]
    by_cases h : c x = true
    · rw [if_pos h, if_pos h, ih]
      ring
    · rw [if_neg h, if_neg h, ih]
      ring

theorem foldl_eq_add_sum {α : Type} (step : Nat → α → Nat) (f : α → Nat)
    (hstep : ∀ a t, step a t = a + f t) (l : List α) :
    ∀ a, l.foldl step a = a + (l.map f).sum := by
  induction l with
  | nil => intro a; simp
  | cons x xs ih =>
    intro a
    simp only [List.foldl_cons, List.map_cons, List.sum_cons, hstep]
    rw [ih]
    ring

theorem keywordNameBonus_eq_spec (ks : List String) (p : Product) :
    keywordNameBonus ks p = specKeywordNameBonus ks p := by
  unfold keywordNameBonus specKeywordNameBonus
  rw [foldl_add_if]
  simp

theorem keywordFeatureBonus_eq_spec (ks : List String) (p : Product) :
    keywordFeatureBonus ks p = specKeywordFeatureBonus ks p := by
  unfold keywordFeatureBonus specKeywordFeatureBonus
  rw [foldl_add_if]
  simp

theorem queryStep_eq (p : Product) (a : Nat) (t : String) :
    (if t.length > 3 then
      let acc1 := if pyIn t (pyLower p.name) then a + 3 else a
      if pyIn t (featuresText p) || pyIn t (specsText p) then acc1 + 2 else acc1
    else a)
    = a + (if t.length > 3 then
        (if pyIn t (pyLower p.name) then 3 else 0)
          + (if pyIn t (featuresText p) || pyIn t (specsText p) then 2 else 0)
      else 0) := by
  by_cases h1 : t.length > 3
  · rw [if_pos h1, if_pos h1]
    by_cases h2 : pyIn t (pyLower p.name) = true <;>
      by_cases h3 : (pyIn t (featuresText p) || pyIn t (specsText p)) = true <;>
        simp [h2, h3]
  · rw [if_neg h1, if_neg h1]
    omega

theorem queryTermBonus_eq_spec (q : String) (p : Product) :
    queryTermBonus q p = specQueryTokenBonus q p := by
  unfold queryTermBonus specQueryTokenBonus
  rw [foldl_eq_add_sum _ _ (queryStep_eq p)]
  simp

theorem scoreProduct_eq_spec (p : Product) (intent : ParsedQuery) (q : String) :
    scoreProduct p intent q = specScore p intent q := by
  simp only [scoreProduct, specScore]
  rw [keywordNameBonus_eq_spec, keywordFeatureBonus_eq_spec, queryTermBonus_eq_spec,
    min_comm]

theorem mem_insertDesc {y a : Product × Nat} :
    ∀ {l}, y ∈ insertDesc a l → y = a ∨ y ∈ l := by
  intro l
  induction l with
  | nil =>
    intro h
    simp only [insertDesc, List.mem_singleton] at h
    exact Or.inl h
  | cons b bs ih =>
    intro h
    simp only [insertDesc] at h
    split at h
    · rcases List.mem_cons.mp h with h1 | h2
      · exact Or.inr (h1 ▸ List.mem_cons_self b bs)
      · rcases ih h2 with h3 | h4
        · exact Or.inl h3
        · exact Or.inr (List.mem_cons_of_mem b h4)
    · rcases List.mem_cons.mp h with h1 | h2
      · exact Or.inl h1
      · exact Or.inr h2

theorem sorted_insertDesc (a : Product × Nat) :
    ∀ {l}, SortedDesc l → SortedDesc (insertDesc a l) := by
  intro l
  induction l with
  | nil => intro _; simp [insertDesc, SortedDesc]
  | cons b bs ih =>
    intro hs
    have hs' := (List.pairwise_cons.mp hs)
    simp only [insertDesc]
    split
    case isTrue h =>
      refine List.pairwise_cons.mpr ⟨?_, ih hs'.2⟩
      intro y hy
      rcases mem_insertDesc hy with h1 | h2
      · exact h1 ▸ Nat.le_of_lt h
      · exact hs'.1 y h2
    case isFalse h =>
      refine List.pairwise_cons.mpr ⟨?_, hs⟩
      intro y hy
      rcases List.mem_cons.mp hy with h1 | h2
      · subst h1; omega
      · exact Nat.le_trans (hs'.1 y h2) (by omega)

theorem sorted_sortDesc : ∀ l, SortedDesc (sortDesc l)
  | [] => by simp [sortDesc, SortedDesc]
  | a :: as => sorted_insertDesc a (sorted_sortDesc as)

theorem filter_insertDesc_ne (s : Nat) (a : Product × Nat) (ha : (a.2 == s) = false) :
    ∀ l, (insertDesc a l).filter (fun x => x.2 == s)
      = l.filter (fun x => x.2 == s) := by
  intro l
  induction l with
  | nil => simp [insertDesc, List.filter, ha]
  | cons b bs ih =>
    simp only [insertDesc]
    split
    · cases hb : (b.2 == s) <;> simp [List.filter_cons, hb, ih]
    · simp [List.filter_cons, ha]

theorem filter_insertDesc_eq (s : Nat) (a : Product × Nat) (ha : (a.2 == s) = true) :
    ∀ l, SortedDesc l → (insertDesc a l).filter (fun x => x.2 == s)
      = a :: l.filter (fun x => x.2 == s) := by
  intro l
  induction l with
  | nil => intro _; simp [insertDesc, List.filter, ha]
  | cons b bs ih =>
    intro hs
    have hs' := (List.pairwise_cons.mp hs)
    simp only [insertDesc]
    split
    case isTrue h =>
      have has : a.2 = s := by simpa using ha
      have hbs : (b.2 == s) = false := by
        have : ¬ (b.2 = s) := by omega
        simp [this]
      simp [List.filter_cons, hbs, ih hs'.2]
    case isFalse h =>
      simp [List.filter_cons, ha]

theorem filter_sortDesc (s : Nat) :
    ∀ l, (sortDesc l).filter (fun x => x.2 == s) = l.filter (fun x => x.2 == s) := by
  intro l
  induction l with
  | nil => rfl
  | cons a as ih =>
    simp only [sortDesc]
    cases ha : (a.2 == s)
    · rw [filter_insertDesc_ne s a ha, ih]
      simp [List.filter_cons, ha]
    · rw [filter_insertDesc_eq s a ha _ (sorted_sortDesc as), ih]
      simp [List.filter_cons, ha]

/-- A concrete TV product used as a test fixture. -/
def tvProd : Product :=
  ⟨"tv-1", "Hisense U7 TV 55 inch", ProductCategory.tv, "Hisense",
   "\x7b\x7d", ["game mode"], none, ["55 inch"]⟩

/-- A concrete AC product whose features mention "inverter". -/
def acProd : Product :=
  ⟨"ac-1", "Comfort Series", ProductCategory.ac, "Hisense",
   "\x7b\x7d", ["inverter"], none, []⟩

/-- A concrete washing machine whose name parses to an 8 kg capacity. -/
def wm8 : Product :=
  ⟨"wm-8", "Washer 8kg", ProductCategory.washing_machine, "Hisense",
   "\x7b\x7d", [], none, []⟩

/-- An intent with only family_size set. -/
def famOnly (fs : Int) : ParsedQuery :=
  ⟨none, none, none, some fs, none, none, [], []⟩

/-- An intent naming the dishwasher category. -/
def dwIntent : ParsedQuery :=
  ⟨some "dishwasher", none, none, none, none, none, [], []⟩

/-- An intent naming an unrecognized category. -/
def gadgetIntent : ParsedQuery :=
  ⟨some "gadget", none, none, none, none, none, [], []⟩

/-- C1: for every list of products, every intent, and every raw query string,
the score computed per product equals min(100, 50 + the sum of the additive
bonuses of spec section 4.3): the recognized-category bonus, +10 per
concatenated keyword in the name, +5 per keyword in features-or-specs text,
the +3/+2 raw-query token bonuses, the size-preference bonuses, the capacity
bonus, and the category-specific use-case bonuses. -/
theorem claim_score_formula (ps : List Product) (intent : ParsedQuery) (q : String) :
    scoreProducts ps intent q = ps.map (fun p => (p, specScore p intent q)) := by
  unfold scoreProducts
  congr 1
  funext p
  rw [scoreProduct_eq_spec]

/-- C2: every score assigned by the scoring engine lies in [50, 100]. -/
theorem claim_score_bounds (ps : List Product) (intent : ParsedQuery) (q : String)
    (x : Product × Nat) (hx : x ∈ scoreProducts ps intent q) :
    50 ≤ x.2 ∧ x.2 ≤ 100 := by
  rcases List.mem_map.mp hx with ⟨p, _, rfl⟩
  constructor
  · exact le_min (by omega) (by norm_num)
  · exact min_le_right _ _

/-- C2 witness: a concrete product scored with the empty intent and query. -/
theorem claim_score_bounds_witness :
    50 ≤ scoreProduct tvProd emptyIntent "" ∧ scoreProduct tvProd emptyIntent "" ≤ 100 :=
  claim_score_bounds [tvProd] emptyIntent ""
    (tvProd, scoreProduct tvProd emptyIntent "") (by decide)

/-- C3: the sort applied to the scored candidates in getRecommendations is
descending by score and stable: filtering the sorted list to any fixed score
yields the candidates in their original (catalog) relative order. -/
theorem claim_sort_stable (ps : List Product) (intent : ParsedQuery) (q : String) :
    SortedDesc (sortDesc (scoreProducts ps intent q)) ∧
    ∀ s : Nat, (sortDesc (scoreProducts ps intent q)).filter (fun x => x.2 == s)
      = (scoreProducts ps intent q).filter (fun x => x.2 == s) :=
  ⟨sorted_sortDesc _, fun s => filter_sortDesc s _⟩

theorem substrB_nil : ∀ l : List Char, substrB [] l = true
  | [] => rfl
  | _ :: _ => rfl

/-- C10: searching the catalog with the empty string returns every product,
each exactly once, in catalog order, and indeed the empty string is a
substring of every product name. -/
theorem claim_empty_search (products : List Product) :
    searchProducts products "" = products
      ∧ ∀ p : Product, pyIn "" (pyLower p.name) = true := by
  have hall : ∀ s : String, pyIn (pyLower "") s = true := fun s => substrB_nil s.toList
  constructor
  · simp only [searchProducts]
    apply List.filter_eq_self.mpr
    intro p _
    simp [hall]
  · intro p
    exact hall (pyLower p.name)

/-- C9: filtering by a category string that is not one of the enumerated
categories is the identity, both in the catalog store's filter operation and
in the orchestrator's intent-category filter (both are total functions, so
no error is raised). -/
theorem claim_unrecognized_category (products : List Product) (c : String)
    (parsed : ParsedQuery) (hc : parsed.category = some c)
    (h : categoryOfString (pyLower c) = none) :
    filter_products products (some c) none = products
      ∧ engineFilter products parsed = products := by
  constructor
  · unfold filter_products
    by_cases hce : c.isEmpty = true
    · simp [truthyStr, hce]
    · simp [truthyStr, hce, h]
  · unfold engineFilter
    rw [hc]
    by_cases hce : c.isEmpty = true
    · simp [truthyStr, hce]
    · simp [truthyStr, hce, h]

/-- C9 witness: the unrecognized category "gadget" on a one-product catalog. -/
theorem claim_unrecognized_category_witness :
    filter_products [tvProd] (some "gadget") none = [tvProd]
      ∧ engineFilter [tvProd] gadgetIntent = [tvProd] :=
  claim_unrecognized_category [tvProd] "gadget" gadgetIntent rfl (by decide)

/-- C4: when the parsed intent's category matches zero catalog products,
getRecommendations returns the empty recommendation list and the exact fixed
no-matches message, echoing the query and intent; the result is the same for
every external-service outcome, i.e. no external explanation call is made
(the empty-candidate check precedes the external round trip). -/
theorem claim_no_matches (db : List Product) (intent : ParsedQuery) (ext : ExtOutcome)
    (q : String) (h : engineFilter db intent = []) :
    getRecommendations db intent ext q
      = Except.ok ⟨q, intent, [], noMatchesMessage⟩ := by
  simp only [getRecommendations, h]
  rfl

/-- C4 witness: a dishwasher query against a TV-only catalog. -/
theorem claim_no_matches_witness :
    getRecommendations [tvProd] dwIntent ExtOutcome.failure "need a dishwasher"
      = Except.ok ⟨"need a dishwasher", dwIntent, [], noMatchesMessage⟩ :=
  claim_no_matches [tvProd] dwIntent ExtOutcome.failure "need a dishwasher" (by decide)

theorem useCase_empty (p : Product) :
    useCaseScore p emptyIntent = acInverterBonus p := by
  obtain ⟨i, n, c, b, sp, ft, u, sz⟩ := p
  cases c
  case ac =>
    cases hX : pyIn "inverter"
          (featuresText (Product.mk i n ProductCategory.ac b sp ft u sz))
        || pyIn "inverter"
          (specsText (Product.mk i n ProductCategory.ac b sp ft u sz)) <;>
      simp only [useCaseScore, acInverterBonus, hX] <;> rfl
  all_goals rfl

/-- C5 counterexample: an AC product whose features mention "inverter" scores
55, not 50, under the all-absent intent and the empty query, so the score is
not base 50 plus the rule-5 raw-query token bonuses alone. -/
theorem claim_empty_intent_cex :
    scoreProduct acProd emptyIntent "" ≠ 50 + specQueryTokenBonus "" acProd := by
  decide

/-- C5 amended: scoring with the all-absent structured intent yields exactly
min(100, 50 + the rule-5 raw-query token bonuses + the AC inverter bonus):
every use-case bonus except the AC "inverter" +5, which has no intent
trigger, requires a non-absent trigger field. -/
theorem claim_empty_intent_amended (p : Product) (q : String) :
    scoreProduct p emptyIntent q
      = min 100 (50 + specQueryTokenBonus q p + acInverterBonus p) := by
  rw [scoreProduct_eq_spec]
  unfold specScore
  rw [useCase_empty]
  rfl

/-- C6 counterexample: the washing machine "Washer 8kg" with family_size 3
has capacity difference exactly 2 from family_size×2 = 6, yet earns +15, not
the +10 the strict-threshold claim predicts: the code's washing-machine
banding is inclusive. -/
theorem claim_banding_cex :
    parseCapacity "kg" wm8.name = some 8
      ∧ Int.natAbs ((8 : Int) - 3 * 2) = 2
      ∧ useCaseScore wm8 (famOnly 3) = 15
      ∧ useCaseScore wm8 (famOnly 3) ≠ 10 := by
  refine ⟨by decide, by decide, by decide, by decide⟩

/-- C6 amended: for family_size present (truthy) and a parsed capacity, the
washing-machine banding is inclusive (difference ≤ 2 gives +15, else ≤ 4
gives +10, else 0), while the refrigerator banding is strict (< 100 gives
+15, else < 200 gives +10, else 0). -/
theorem claim_banding_amended (fs : Int) (cap : Nat) (p : Product) (hfs : fs ≠ 0) :
    (p.category = ProductCategory.washing_machine →
      parseCapacity "kg" p.name = some cap →
      useCaseScore p (famOnly fs)
        = (if Int.natAbs ((cap : Int) - fs * 2) ≤ 2 then 15
           else if Int.natAbs ((cap : Int) - fs * 2) ≤ 4 then 10 else 0)) ∧
    (p.category = ProductCategory.refrigerator →
      parseCapacity "L" p.name = some cap →
      useCaseScore p (famOnly fs)
        = (if Int.natAbs ((cap : Int) - fs * 100) < 100 then 15
           else if Int.natAbs ((cap : Int) - fs * 100) < 200 then 10 else 0)) := by
  obtain ⟨i, n, c, b, sp, ft, u, sz⟩ := p
  constructor
  · intro hcat hparse
    cases c <;> simp only [Product.mk.injEq] at hcat <;> try exact absurd hcat (by decide)
    simp only at hparse
    simp only [useCaseScore, famOnly, truthyInt, hfs, if_neg, hparse]
    rfl
  · intro hcat hparse
    cases c <;> simp only [Product.mk.injEq] at hcat <;> try exact absurd hcat (by decide)
    simp only at hparse
    simp only [useCaseScore, famOnly, truthyInt, hfs, if_neg, hparse]
    rfl

/-- C6 witness: the amended banding evaluated at the concrete fixture. -/
theorem claim_banding_amended_witness :
    useCaseScore wm8 (famOnly 3)
      = (if Int.natAbs ((8 : Int) - 3 * 2) ≤ 2 then 15
         else if Int.natAbs ((8 : Int) - 3 * 2) ≤ 4 then 10 else 0) :=
  (claim_banding_amended 3 8 wm8 (by decide)).1 rfl (by decide)

/-- C7: evaluation of the code at the failing input. With a non-empty
candidate list projected by the orchestrator (keys id, name, category,
specs, features, sizes, url) and a non-JSON external failure, the
except-Exception fallback evaluates p["brand"] (and would evaluate
p["price"]), keys the projection does not contain — the Product model has no
price field at all — so a KeyError propagates instead of the fallback
response the spec promises. -/
theorem claim_failure_fallback_bug :
    generateRecommendations ExtOutcome.failure [projectProduct tvProd]
      = Except.error (PyErr.keyError "brand") := by
  rfl

theorem fallbackEntryA_proj (p : Product) :
    fallbackEntryA (projectProduct p)
      = Except.ok (RecEntry.mk p.id 70 (p.name ++ " - a solid choice in this category.")) := by
  rfl

theorem buildEntriesA_proj : ∀ l : List Product,
    buildEntries fallbackEntryA (l.map projectProduct)
      = Except.ok (l.map (fun p =>
          RecEntry.mk p.id 70 (p.name ++ " - a solid choice in this category.")))
  | [] => rfl
  | p :: ps => by
    simp only [List.map_cons, buildEntries, fallbackEntryA_proj, buildEntriesA_proj ps]

/-- C8: with a non-empty candidate list built by the orchestrator's
projection and a malformed-JSON external response, the explanation generator
returns exactly the first min(5, candidateCount) candidates, in candidate
order, each scored 70 with a reasoning string built from the product's own
name. -/
theorem claim_malformed_fallback (ps : List Product) (h : ps ≠ []) :
    generateRecommendations ExtOutcome.malformedJson (ps.map projectProduct)
      = Except.ok ⟨"Here are some products that match your requirements:",
          (ps.take 5).map (fun p =>
            RecEntry.mk p.id 70 (p.name ++ " - a solid choice in this category."))⟩
    ∧ ((ps.take 5).map (fun p =>
          RecEntry.mk p.id 70 (p.name ++ " - a solid choice in this category."))).length
        = min 5 ps.length := by
  constructor
  · have hne : (ps.map projectProduct).isEmpty = false := by
      cases ps with
      | nil => exact absurd rfl h
      | cons a as => rfl
    simp only [generateRecommendations, hne, Bool.false_eq_true, if_false]
    rw [← List.map_take, buildEntriesA_proj]
    rfl
  · simp [List.length_take]

/-- C8 witness: the malformed-JSON fallback on a one-candidate list. -/
theorem claim_malformed_fallback_witness :
    generateRecommendations ExtOutcome.malformedJson ([tvProd].map projectProduct)
      = Except.ok ⟨"Here are some products that match your requirements:",
          ([tvProd].take 5).map (fun p =>
            RecEntry.mk p.id 70 (p.name ++ " - a solid choice in this category."))⟩
    ∧ (([tvProd].take 5).map (fun p =>
          RecEntry.mk p.id 70 (p.name ++ " - a solid choice in this category."))).length
        = min 5 [tvProd].length :=
  claim_malformed_fallback [tvProd] (by decide)

end Recommender
